import Mathlib

/-!
Verification development for the langchain-rag-project repository.

The repository ships the React client (RAGInterface.jsx, AuthContext,
AuthCallback, Register) together with deployment scripts and READMEs; the
FastAPI backend (session authority, ingestion pipeline, chunk store, index
manager, query engine) is not part of the checked-in sources.  The client
code is embedded directly from the JSX sources; the backend components are
modelled from the specification (each such definition carries a doc comment
starting with `Modelled from the spec:`).
-/

/- ===================== Client upload validation =====================
   From src/frontend/src/components/RAGInterface.jsx, `uploadFile`:
     const files = Array.from(e.target.files);
     if (files.length === 0) return;
     const invalidFiles = files.filter(f => !f.name.toLowerCase().endsWith('.pdf'));
     if (invalidFiles.length > 0) { setError('Only PDF files are allowed'); return; }
     ... xhr.send(formData with all files) -/

/-- ASCII lower-casing of one character, as done by
`String.prototype.toLowerCase` on ASCII file names. -/
def lowerChar (c : Char) : Char :=
  if 65 ≤ c.toNat ∧ c.toNat ≤ 90 then Char.ofNat (c.toNat + 32) else c

/-- `endsWith` on character lists: the last `suffix.length` characters
equal `suffix`. -/
def endsWithChars (l suffix : List Char) : Bool :=
  decide (l.reverse.take suffix.length = suffix.reverse)

/-- A file name passes the client-side type check when its lower-cased name
ends in ".pdf" — `f.name.toLowerCase().endsWith('.pdf')`
(RAGInterface.jsx line 68). -/
def isPdfName (name : String) : Bool :=
  endsWithChars (name.toList.map lowerChar) ".pdf".toList

/-- Outcome of the client-side part of `uploadFile`: either an HTTP upload
request carrying the batch of file names is issued, or no request is issued;
independently an error banner message may be set. -/
structure UploadAction where
  request : Option (List String)
  bannerMsg : Option String
  deriving DecidableEq

/-- The validation and dispatch logic of `uploadFile`
(RAGInterface.jsx lines 63-75 and 139-141): an empty selection returns
without any effect; a batch containing any non-PDF name sets the error
banner and returns without issuing a request; otherwise all files of the
batch are sent in one request. -/
def uploadFileClient (files : List String) : UploadAction :=
  if files.length = 0 then ⟨none, none⟩
  else if 0 < (files.filter (fun f => !(isPdfName f))).length then
    ⟨none, some "Only PDF files are allowed"⟩
  else ⟨some files, none⟩

/- ===================== Client HTTP requests =====================
   Requests built by RAGInterface.jsx and AuthContext. -/

/-- An HTTP request as assembled by the client: method, path, header list
and body text. -/
structure Request where
  method : String
  path : String
  headers : List (String × String)
  body : String
  deriving DecidableEq

/-- The bearer form of a token, as interpolated into the Authorization
header by the client (`Bearer ${token}`). -/
def bearer (tok : String) : String := "Bearer " ++ tok

/-- One-field JSON object serialisation, as produced by
JSON.stringify on an object with a single string field. -/
def jsonField (k v : String) : String :=
  "\x7b\"" ++ k ++ "\":\"" ++ v ++ "\"\x7d"

/-- The GET /api/files request (RAGInterface.jsx lines 42-46 and 157-159). -/
def filesRequest (tok : String) : Request :=
  ⟨"GET", "/api/files", [("Authorization", bearer tok)], ""⟩

/-- The POST /api/ask request (RAGInterface.jsx lines 179-186). -/
def askRequest (tok q : String) : Request :=
  ⟨"POST", "/api/ask",
    [("Content-Type", "application/json"), ("Authorization", bearer tok)],
    jsonField "question" q⟩

/-- The POST /api/upload request (RAGInterface.jsx lines 139-141); the body
stands for the multipart form data listing the batch's file names. -/
def uploadRequest (tok : String) (files : List String) : Request :=
  ⟨"POST", "/api/upload", [("Authorization", bearer tok)],
    String.intercalate "," files⟩

/-- The POST /api/reset request (RAGInterface.jsx lines 229-232). -/
def resetRequest (tok : String) : Request :=
  ⟨"POST", "/api/reset", [("Authorization", bearer tok)], ""⟩

/- ===================== Client state after upload =====================
   The xhr `load` handler for a 200 response (RAGInterface.jsx lines
   99-120): it re-fetches the authoritative list from /api/files via
   fetchFiles() rather than storing response.files. -/

/-- The slice of React component state touched by the upload success
handler. -/
structure ClientState where
  uploadedFiles : List String
  fileUploaded : Bool
  uploadStatus : String
  deriving DecidableEq

/-- The upload success path (xhr status 200) of `uploadFile`
(RAGInterface.jsx lines 99-120): `fetchFiles()` overwrites
`uploadedFiles` with the list returned by GET /api/files
(`serverFiles`), while the status banner uses the length of the upload
response's own `files` field (`responseFiles`). -/
def onUploadSuccess (responseFiles serverFiles : List String)
    (st : ClientState) : ClientState :=
  { st with
    uploadedFiles := serverFiles
    fileUploaded := true
    uploadStatus := "ok " ++ toString responseFiles.length ++
      (if 1 < responseFiles.length then " files" else " file") ++
      " uploaded successfully" }

/- ===================== Client login (AuthContext) =====================
   From src/unnamed/part_001 (AuthContext.jsx). -/

/-- The user object kept by the client after login: the source stores
JSON.stringify(\x7b username \x7d), an object with the single field
`username` (part_001 lines 46 and 48). -/
structure UserData where
  username : String
  deriving DecidableEq

/-- The auth context state set on a completed login (part_001 lines 47-48). -/
structure AuthState where
  user : Option UserData
  token : Option String
  deriving DecidableEq

/-- Association-list update used to model `localStorage.setItem`. -/
def aset {α : Type} (k : String) (v : α) : List (String × α) → List (String × α)
  | [] => [(k, v)]
  | (k2, v2) :: rest => if k2 = k then (k, v) :: rest else (k2, v2) :: aset k v rest

/-- Association-list lookup used to model `localStorage.getItem` and the
backend's keyed maps. -/
def alookup {α : Type} (k : String) : List (String × α) → Option α
  | [] => none
  | (k2, v) :: rest => if k2 = k then some v else alookup k rest

/-- `localStorage.setItem`. -/
def setItem (storage : List (String × String)) (k v : String) :
    List (String × String) :=
  aset k v storage

/-- `localStorage.getItem`. -/
def getItem (storage : List (String × String)) (k : String) : Option String :=
  alookup k storage

/-- The serialised user_data value, JSON.stringify(\x7b username \x7d). -/
def userDataJson (username : String) : String :=
  jsonField "username" username

/-- Response of POST /api/token as consumed by `login`: either ok with the
issued access token, or a failure detail. -/
inductive LoginResp where
  | ok (accessToken : String)
  | failed (detail : String)
  deriving DecidableEq

/-- The POST /api/token request built by `login` (part_001 lines 26-37):
a URL-encoded form carrying username and password. -/
def loginRequest (username password : String) : Request :=
  ⟨"POST", "/api/token",
    [("Content-Type", "application/x-www-form-urlencoded")],
    "username=" ++ username ++ "&password=" ++ password⟩

/-- The response-handling half of `login` (part_001 lines 39-49): on a
non-ok response an error is thrown and nothing is stored; on success the
storage receives the access token under 'token' and the username object
under 'user_data', and the context state is set to exactly those values.
The password is not available to this handler in the source: the `.then`
body reads only `data.access_token` and the closed-over `username`. -/
def loginHandle (storage : List (String × String)) (username : String)
    (resp : LoginResp) : Option (List (String × String) × AuthState) :=
  match resp with
  | .failed _ => none
  | .ok tk =>
      some (setItem (setItem storage "token" tk) "user_data" (userDataJson username),
            ⟨some ⟨username⟩, some tk⟩)

/-- The whole client `login` call: the request it issues (which carries the
password in its form body) paired with the storage/state update performed
on the response. -/
def clientLogin (storage : List (String × String)) (username password : String)
    (resp : LoginResp) : Request × Option (List (String × String) × AuthState) :=
  (loginRequest username password, loginHandle storage username resp)

/-- `loginWithToken` (part_001 lines 65-70): same storage/state update as a
successful login, with the token given directly. -/
def loginWithToken (storage : List (String × String)) (tok username : String) :
    List (String × String) × AuthState :=
  (setItem (setItem storage "token" tok) "user_data" (userDataJson username),
   ⟨some ⟨username⟩, some tok⟩)

/- ===================== AuthCallback (delegated login) =====================
   From src/unnamed/part_000 (AuthCallback.jsx). -/

/-- Observable effect of the AuthCallback effect hook: the
`loginWithToken(token, username)` call if any, the navigation target if
any, and the error message if any. -/
structure CallbackOut where
  loginCall : Option (String × String)
  navTarget : Option String
  errorMsg : Option String
  deriving DecidableEq

/-- JavaScript `searchParams.get('username') || 'User'`: absent or empty
(falsy) yields the fallback "User" (part_000 line 14). -/
def usernameOr (p : Option String) : String :=
  match p with
  | none => "User"
  | some s => if s = "" then "User" else s

/-- The AuthCallback effect (part_000 lines 12-29): the branch condition
is JavaScript `if (token)` (line 16), so the token must be present AND
non-empty (truthy) — `searchParams.get` yields the empty string for a
`?token=` URL, which is falsy. With a truthy token the client calls
loginWithToken with the token and the (defaulted) username and navigates
to "/"; otherwise it sets an error message and does not navigate or log
in. -/
def authCallback (tokenParam usernameParam : Option String) : CallbackOut :=
  match tokenParam with
  | some tk =>
      if tk = "" then
        ⟨none, none, some "Authentication failed. No token received from server."⟩
      else ⟨some (tk, usernameOr usernameParam), some "/", none⟩
  | none => ⟨none, none,
      some "Authentication failed. No token received from server."⟩

/- ===================== Backend model (spec-modelled) =====================
   The FastAPI backend is not among the checked-in sources; the following
   definitions are modelled from the specification (sections 3, 4.1, 4.3,
   4.4, 4.5 and 6). -/

/-- Modelled from the spec (section 3, "Chunk"): a contiguous passage of
text extracted from a document, with source filename, passage text,
sequence position, and derived embedding vector. -/
structure Chunk where
  source : String
  text : String
  seq : Nat
  vec : List Int
  deriving DecidableEq

/-- Modelled from the spec (sections 3, 4.1, 4.4 and 6, "Persisted state
layout"): server-side state holding the token table of the Session
Authority and, per user, the vector index (chunk list) and tracked source
filenames. -/
structure SysState where
  tokens : List (String × String)
  indexes : List (String × List Chunk)
  files : List (String × List String)
  deriving DecidableEq

/-- Modelled from the spec (section 4.1): `validate(token) → UserId`; a
valid token resolves to exactly one user, an unknown token to none. -/
def validate (st : SysState) (tok : String) : Option String :=
  alookup tok st.tokens

/-- The chunks of one user's vector index (empty when absent,
`open_or_create` semantics of section 4.4). -/
def chunksOf (st : SysState) (u : String) : List Chunk :=
  (alookup u st.indexes).getD []

/-- The tracked source filenames of one user (section 4.4 `list_files`). -/
def filesOf (st : SysState) (u : String) : List String :=
  (alookup u st.files).getD []

/-- Modelled from the spec (sections 4.3 step 5 and 4.4 `insert`): insert a
file's chunks into the user's index, replacing any prior chunks for the
same filename, and update the tracked-files set. -/
def insertChunks (st : SysState) (u fname : String) (chs : List Chunk) :
    SysState :=
  { st with
    indexes := aset u ((chunksOf st u).filter (fun c => c.source != fname) ++ chs)
      st.indexes
    files := aset u ((filesOf st u).filter (fun f => f != fname) ++ [fname])
      st.files }

/-- Modelled from the spec (section 4.4 `clear` and section 6 "Reset"):
atomically removes all chunks and file entries for the user. -/
def clearUser (st : SysState) (u : String) : SysState :=
  { st with
    indexes := aset u [] st.indexes
    files := aset u [] st.files }

/-- Squared euclidean distance between two vectors. -/
def dist2 (v w : List Int) : Int :=
  ((v.zip w).map (fun p => (p.1 - p.2) * (p.1 - p.2))).foldr (· + ·) 0

/-- Stable insertion into a list sorted by `key`: equal keys keep the
existing element first, so ties are broken by earliest insertion order
(section 4.4 `search`). -/
def insertSorted (key : Chunk → Int) (c : Chunk) : List Chunk → List Chunk
  | [] => [c]
  | d :: ds => if key c < key d then c :: d :: ds else d :: insertSorted key c ds

/-- Stable sort by `key`. -/
def sortByKey (key : Chunk → Int) : List Chunk → List Chunk
  | [] => []
  | c :: cs => insertSorted key c (sortByKey key cs)

/-- Modelled from the spec (section 4.4 `search`): the k chunks of the
user's index with smallest distance to the query vector, ties broken by
earliest insertion order; fewer than k when the index is smaller; empty on
an empty index. -/
def searchIndex (st : SysState) (u : String) (qv : List Int) (k : Nat) :
    List Chunk :=
  (sortByKey (fun c => dist2 c.vec qv) (chunksOf st u)).take k

/-- Modelled from the spec (section 7 taxonomy): the distinguishable
failure conditions surfaced by the per-user operations. -/
inductive ApiError where
  | unauthorized
  | emptyIndex
  | generationError (msg : String)
  deriving DecidableEq

/-- The answer returned by the query engine: answer text plus the distinct
source filenames of the retrieved chunks (section 4.5 step 6). -/
structure AnswerOut where
  answerText : String
  sources : List String
  deriving DecidableEq

/-- Distinct-preserving deduplication of source filenames. -/
def distinctKeep : List String → List String
  | [] => []
  | s :: rest => s :: (distinctKeep rest).filter (fun t => t != s)

/-- Modelled from the spec (section 4.5 step 4): the prompt concatenates
the retrieved passages with their source filenames and the question. -/
def buildPrompt (chs : List Chunk) (q : String) : String :=
  String.intercalate "\n" (chs.map (fun c => c.source ++ ": " ++ c.text)) ++
    "\nQuestion: " ++ q

/-- Modelled from the spec (section 4.5): `answer(user_id, question)`;
fails with EmptyIndex on a zero-chunk index (step 1), otherwise embeds the
question, retrieves top-k chunks, builds the prompt, calls the language
model (GenerationError on upstream failure, step 5) and returns the answer
text with the distinct source filenames of the retrieved chunks (step 6). -/
def answerOp (embed : String → List Int) (llm : String → Option String)
    (st : SysState) (u : String) (q : String) (k : Nat) :
    Except ApiError AnswerOut :=
  if chunksOf st u = [] then .error .emptyIndex
  else
    let retrieved := searchIndex st u (embed q) k
    match llm (buildPrompt retrieved q) with
    | none => .error (.generationError "language model failure")
    | some a => .ok ⟨a, distinctKeep (retrieved.map (fun c => c.source))⟩

/-- Modelled from the spec (sections 4.1 and 6): every data-bearing
operation first resolves its bearer token through `validate`; an absent or
invalid token yields unauthorized and the per-user body is never reached. -/
def withAuth {α : Type} (st : SysState) (tok : Option String)
    (body : String → α) : Except ApiError α :=
  match tok with
  | none => .error .unauthorized
  | some t =>
      match validate st t with
      | none => .error .unauthorized
      | some u => .ok (body u)

/-- Token-gated search (sections 4.4 and 6). -/
def searchTok (st : SysState) (tok : Option String) (qv : List Int) (k : Nat) :
    Except ApiError (List Chunk) :=
  withAuth st tok (fun u => searchIndex st u qv k)

/-- Token-gated file listing (section 6 "List files"). -/
def listFilesTok (st : SysState) (tok : Option String) :
    Except ApiError (List String) :=
  withAuth st tok (fun u => filesOf st u)

/-- Token-gated reset (section 6 "Reset"). -/
def resetTok (st : SysState) (tok : Option String) : Except ApiError SysState :=
  withAuth st tok (fun u => clearUser st u)

/-- Token-gated upload of one file's chunks (section 6 "Upload"). -/
def uploadTok (st : SysState) (tok : Option String) (fname : String)
    (chs : List Chunk) : Except ApiError SysState :=
  withAuth st tok (fun u => insertChunks st u fname chs)

/-- Token-gated answer (sections 4.5 and 6 "Ask"). -/
def answerTok (embed : String → List Int) (llm : String → Option String)
    (st : SysState) (tok : Option String) (q : String) (k : Nat) :
    Except ApiError AnswerOut :=
  match tok with
  | none => .error .unauthorized
  | some t =>
      match validate st t with
      | none => .error .unauthorized
      | some u => answerOp embed llm st u q k

/- ===================== Chunk Store (spec-modelled) =====================
   Section 4.2: split(document_text, chunk_size, overlap). -/

/-- The start-position step between consecutive chunks,
chunk_size - overlap; floored at 1 so the recursion is well founded even
in the degenerate case overlap ≥ chunk_size, which the specification's
guarantees exclude (they are stated under overlap < chunk_size, where the
floor is inert). -/
def chunkStep (cs ov : Nat) : Nat := max 1 (cs - ov)

/-- Modelled from the spec (section 4.2): the chunks of the suffix of
`text` starting at `pos` — a window of `cs` characters at `pos`, then the
window `chunkStep cs ov` further, until a window reaches the end of the
document (the last chunk is clamped at the boundary). The extra `fuel`
argument only bounds the recursion depth so the definition is structurally
recursive and computable by the kernel; `splitText` passes `text.length`,
which always suffices (the step is at least 1), so the fuel never alters
the result. Deterministic and pure by construction (a total function). -/
def splitFrom (cs ov : Nat) (text : List Char) (pos : Nat) :
    Nat → List (List Char)
  | 0 => [(text.drop pos).take cs]
  | fuel + 1 =>
    if text.length ≤ pos + cs then [(text.drop pos).take cs]
    else (text.drop pos).take cs ::
      splitFrom cs ov text (pos + chunkStep cs ov) fuel

/-- Modelled from the spec (section 4.2): `split(document_text, chunk_size,
overlap)`; zero-length input produces zero chunks (not an error), otherwise
the windows starting at 0. -/
def splitText (cs ov : Nat) (text : List Char) : List (List Char) :=
  if text.length = 0 then [] else splitFrom cs ov text 0 text.length

/-- Reconstruction of a document from its chunks: the non-overlapping span
(first `stp` characters) of every chunk but the last, then the last chunk
whole. -/
def joinSpans (stp : Nat) : List (List Char) → List Char
  | [] => []
  | c :: rest => if rest.isEmpty then c else c.take stp ++ joinSpans stp rest

/- ===================== Helper lemmas ===================== -/

theorem alookup_aset_self {α : Type} (k : String) (v : α)
    (m : List (String × α)) : alookup k (aset k v m) = some v := by
  induction m with
  | nil => simp [aset, alookup]
  | cons p rest ih =>
    obtain ⟨k2, v2⟩ := p
    by_cases h : k2 = k
    · simp [aset, alookup, h]
    · simp [aset, alookup, h, ih]

theorem alookup_aset_other {α : Type} (k k2 : String) (v : α)
    (m : List (String × α)) (h : k2 ≠ k) :
    alookup k2 (aset k v m) = alookup k2 m := by
  induction m with
  | nil => simp [aset, alookup, h, Ne.symm h]
  | cons p rest ih =>
    obtain ⟨k3, v3⟩ := p
    by_cases h2 : k3 = k
    · subst h2
      simp [aset, alookup, h, Ne.symm h]
    · by_cases h3 : k3 = k2
      · simp [aset, alookup, h2, h3, h]
      · simp [aset, alookup, h2, h3, ih]

theorem mem_insertSorted (key : Chunk → Int) (c x : Chunk) (l : List Chunk) :
    x ∈ insertSorted key c l ↔ x = c ∨ x ∈ l := by
  induction l with
  | nil => simp [insertSorted]
  | cons d ds ih =>
    by_cases h : key c < key d
    · simp [insertSorted, h]
    · simp [insertSorted, h, ih]
      tauto

theorem mem_sortByKey (key : Chunk → Int) (x : Chunk) (l : List Chunk) :
    x ∈ sortByKey key l ↔ x ∈ l := by
  induction l with
  | nil => simp [sortByKey]
  | cons c cs ih => simp [sortByKey, mem_insertSorted, ih]

theorem mem_searchIndex (st : SysState) (u : String) (qv : List Int) (k : Nat)
    (c : Chunk) (h : c ∈ searchIndex st u qv k) : c ∈ chunksOf st u := by
  have h2 : c ∈ sortByKey (fun c => dist2 c.vec qv) (chunksOf st u) :=
    (List.take_sublist k _).mem h
  exact (mem_sortByKey _ _ _).mp h2

theorem validate_insert (st : SysState) (u fname t : String)
    (chs : List Chunk) :
    validate (insertChunks st u fname chs) t = validate st t := rfl

theorem chunksOf_insert_other (st : SysState) (u1 u2 fname : String)
    (chs : List Chunk) (h : u2 ≠ u1) :
    chunksOf (insertChunks st u1 fname chs) u2 = chunksOf st u2 := by
  unfold chunksOf insertChunks
  simp only [alookup_aset_other _ _ _ _ h]

theorem filesOf_insert_other (st : SysState) (u1 u2 fname : String)
    (chs : List Chunk) (h : u2 ≠ u1) :
    filesOf (insertChunks st u1 fname chs) u2 = filesOf st u2 := by
  unfold filesOf insertChunks
  simp only [alookup_aset_other _ _ _ _ h]

theorem chunkStep_eq (cs ov : Nat) (hov : ov < cs) : chunkStep cs ov = cs - ov := by
  unfold chunkStep
  omega

theorem splitFrom_ne_nil (cs ov : Nat) (text : List Char) :
    ∀ fuel pos, splitFrom cs ov text pos fuel ≠ [] := by
  intro fuel pos
  cases fuel with
  | zero => simp [splitFrom]
  | succ fuel => by_cases h : text.length ≤ pos + cs <;> simp [splitFrom, h]

theorem splitFrom_head (cs ov : Nat) (text : List Char) :
    ∀ fuel pos,
      (splitFrom cs ov text pos fuel).head? = some ((text.drop pos).take cs) := by
  intro fuel pos
  cases fuel with
  | zero => simp [splitFrom]
  | succ fuel => by_cases h : text.length ≤ pos + cs <;> simp [splitFrom, h]

theorem splitFrom_chunk_le (cs ov : Nat) (text : List Char) :
    ∀ fuel pos c, c ∈ splitFrom cs ov text pos fuel → c.length ≤ cs := by
  intro fuel
  induction fuel with
  | zero =>
    intro pos c hc
    simp [splitFrom] at hc
    subst hc
    rw [List.length_take]
    omega
  | succ fuel ih =>
    intro pos c hc
    by_cases h : text.length ≤ pos + cs
    · simp [splitFrom, h] at hc
      subst hc
      rw [List.length_take]
      omega
    · simp [splitFrom, h] at hc
      rcases hc with hc | hc
      · subst hc
        rw [List.length_take]
        omega
      · exact ih _ _ hc

theorem joinSpans_splitFrom (cs ov : Nat) (text : List Char) (hov : ov < cs) :
    ∀ fuel pos, text.length ≤ pos + cs + fuel * chunkStep cs ov →
      joinSpans (cs - ov) (splitFrom cs ov text pos fuel) = text.drop pos := by
  intro fuel
  induction fuel with
  | zero =>
    intro pos hsuff
    simp only [splitFrom, joinSpans, List.isEmpty_nil, if_true]
    exact List.take_of_length_le (by rw [List.length_drop]; omega)
  | succ fuel ih =>
    intro pos hsuff
    by_cases h : text.length ≤ pos + cs
    · simp only [splitFrom, if_pos h, joinSpans, List.isEmpty_nil, if_true]
      exact List.take_of_length_le (by rw [List.length_drop]; omega)
    · have hstep : chunkStep cs ov = cs - ov := chunkStep_eq cs ov hov
      have e1 : splitFrom cs ov text pos (fuel + 1) =
          (text.drop pos).take cs ::
            splitFrom cs ov text (pos + chunkStep cs ov) fuel := by
        simp [splitFrom, h]
      have hres : (splitFrom cs ov text (pos + chunkStep cs ov) fuel).isEmpty
          = false := by
        rw [List.isEmpty_eq_false]
        exact splitFrom_ne_nil cs ov text fuel _
      rw [e1]
      simp only [joinSpans, hres, Bool.false_eq_true, if_false]
      rw [ih (pos + chunkStep cs ov)
        (by simp only [Nat.succ_mul] at hsuff; omega)]
      rw [List.take_take]
      have hmin : (cs - ov) ⊓ cs = cs - ov := inf_eq_left.mpr (Nat.sub_le cs ov)
      rw [hmin, hstep]
      have e2 : text.drop (pos + (cs - ov)) = (text.drop pos).drop (cs - ov) :=
        (List.drop_drop _ _ _).symm
      rw [e2, List.take_append_drop]

theorem mem_joinSpans (stp : Nat) (x : Char) :
    ∀ l, x ∈ joinSpans stp l → ∃ c ∈ l, x ∈ c := by
  intro l
  induction l with
  | nil => simp [joinSpans]
  | cons c rest ih =>
    intro hx
    cases rest with
    | nil =>
      simp only [joinSpans, List.isEmpty_nil, if_true] at hx
      exact ⟨c, by simp, hx⟩
    | cons d ds =>
      simp only [joinSpans, List.isEmpty_cons, Bool.false_eq_true, if_false] at hx
      rcases List.mem_append.mp hx with hx | hx
      · exact ⟨c, by simp, (List.take_sublist _ _).mem hx⟩
      · obtain ⟨c2, hc2, hxc⟩ := ih hx
        exact ⟨c2, List.mem_cons_of_mem _ hc2, hxc⟩

theorem chain_splitFrom (cs ov : Nat) (text : List Char) (hov : ov < cs) :
    ∀ fuel pos, List.Chain' (fun a b => a.drop (a.length - ov) = b.take ov)
      (splitFrom cs ov text pos fuel) := by
  intro fuel
  induction fuel with
  | zero =>
    intro pos
    simp [splitFrom]
  | succ fuel ih =>
    intro pos
    by_cases h : text.length ≤ pos + cs
    · simp [splitFrom, h]
    · have hstep : chunkStep cs ov = cs - ov := chunkStep_eq cs ov hov
      have e1 : splitFrom cs ov text pos (fuel + 1) =
          (text.drop pos).take cs ::
            splitFrom cs ov text (pos + chunkStep cs ov) fuel := by
        simp [splitFrom, h]
      rw [e1, List.chain'_cons']
      refine ⟨?_, ih _⟩
      intro y hy
      rw [splitFrom_head] at hy
      simp only [Option.mem_def, Option.some.injEq] at hy
      subst hy
      have hlen : ((text.drop pos).take cs).length = cs := by
        rw [List.length_take, List.length_drop]
        exact inf_eq_left.mpr (by omega)
      rw [hlen, List.drop_take, List.take_take, List.drop_drop, hstep]
      have hmin : ov ⊓ cs = ov := inf_eq_left.mpr (le_of_lt hov)
      have hsub : cs - (cs - ov) = ov := by omega
      rw [hmin, hsub]

theorem splitFrom_count (cs ov : Nat) (text : List Char) (hov : ov < cs) :
    ∀ fuel pos, pos + ov < text.length →
      text.length ≤ pos + cs + fuel * chunkStep cs ov →
      (splitFrom cs ov text pos fuel).length =
        (text.length - pos - ov + (cs - ov) - 1) / (cs - ov) := by
  intro fuel
  induction fuel with
  | zero =>
    intro pos hpos hsuff
    simp only [splitFrom, List.length_singleton]
    exact (Nat.div_eq_of_lt_le (by omega) (by omega)).symm
  | succ fuel ih =>
    intro pos hpos hsuff
    by_cases h : text.length ≤ pos + cs
    · simp only [splitFrom, if_pos h, List.length_singleton]
      exact (Nat.div_eq_of_lt_le (by omega) (by omega)).symm
    · have hstep : chunkStep cs ov = cs - ov := chunkStep_eq cs ov hov
      have e1 : splitFrom cs ov text pos (fuel + 1) =
          (text.drop pos).take cs ::
            splitFrom cs ov text (pos + chunkStep cs ov) fuel := by
        simp [splitFrom, h]
      rw [e1, List.length_cons,
        ih (pos + chunkStep cs ov) (by rw [hstep]; omega)
          (by simp only [Nat.succ_mul] at hsuff; omega),
        hstep]
      have hA : text.length - (pos + (cs - ov)) - ov + (cs - ov) - 1 =
          text.length - pos - ov - 1 := by omega
      have hB : text.length - pos - ov + (cs - ov) - 1 =
          (text.length - pos - ov - 1) + (cs - ov) := by omega
      rw [hA, hB, Nat.add_div_right _ (by omega : 0 < cs - ov)]

theorem splitText_fuel_ok (cs ov : Nat) (text : List Char) :
    text.length ≤ 0 + cs + text.length * chunkStep cs ov := by
  have h1 : 1 ≤ chunkStep cs ov := Nat.le_max_left _ _
  have h2 : text.length ≤ text.length * chunkStep cs ov :=
    Nat.le_mul_of_pos_right _ h1
  omega

/- ===================== Claim theorems ===================== -/

/-- C10 counterexample: a callback URL carrying the 'token' query
parameter with an empty value (`?token=`) contains the parameter, yet the
client does not log in and does not navigate — the error message is shown
instead, because the source's branch is the truthiness test `if (token)`
and the empty string is falsy. This refutes the claim that a present
'token' parameter always leads to login and navigation. -/
theorem authCallback_emptyToken_counterexample :
    (authCallback (some "") none).loginCall = none ∧
    (authCallback (some "") none).navTarget = none ∧
    (authCallback (some "") none).errorMsg =
      some "Authentication failed. No token received from server." :=
  ⟨rfl, rfl, rfl⟩

/-- C10 amended: in the delegated-login callback, whenever the URL carries
a 'token' parameter with a non-empty (truthy) value the client calls
loginWithToken with that token — with the fixed username "User"
substituted when the username parameter is absent — and navigates to the
home route; when the token parameter is absent or its value is empty
(falsy), no login occurs, no navigation happens, and an error message is
shown instead. -/
theorem authCallback_behaviour (tk : String) (u : Option String)
    (htk : tk ≠ "") :
    (authCallback (some tk) u).loginCall = some (tk, usernameOr u) ∧
    (authCallback (some tk) none).loginCall = some (tk, "User") ∧
    (authCallback (some tk) u).navTarget = some "/" ∧
    (authCallback (some tk) u).errorMsg = none ∧
    (authCallback none u).loginCall = none ∧
    (authCallback none u).navTarget = none ∧
    (authCallback (some "") u).loginCall = none ∧
    (authCallback (some "") u).navTarget = none ∧
    (authCallback (some "") u).errorMsg =
      some "Authentication failed. No token received from server." ∧
    (authCallback none u).errorMsg =
      some "Authentication failed. No token received from server." := by
  refine ⟨?_, ?_, ?_, ?_, rfl, rfl, rfl, rfl, rfl, rfl⟩ <;>
    simp [authCallback, usernameOr, htk]

/-- C10 amended witness: concrete instance with the non-empty token "abc"
and an absent username parameter. -/
theorem authCallback_behaviour_witness :
    "abc" ≠ "" ∧
    ((authCallback (some "abc") none).loginCall =
       some ("abc", usernameOr none) ∧
     (authCallback (some "abc") none).loginCall = some ("abc", "User") ∧
     (authCallback (some "abc") none).navTarget = some "/" ∧
     (authCallback (some "abc") none).errorMsg = none ∧
     (authCallback none none).loginCall = none ∧
     (authCallback none none).navTarget = none ∧
     (authCallback (some "") none).loginCall = none ∧
     (authCallback (some "") none).navTarget = none ∧
     (authCallback (some "") none).errorMsg =
       some "Authentication failed. No token received from server." ∧
     (authCallback none none).errorMsg =
       some "Authentication failed. No token received from server.") :=
  ⟨by decide, authCallback_behaviour "abc" none (by decide)⟩

/-- C6: after a successful upload the file list shown as authoritative is
the one fetched from the list-files endpoint (`serverFiles`), and it is
entirely independent of the upload response's own `files` list: replacing
that list by any other leaves the presented file list unchanged. -/
theorem uploadedFiles_from_list_endpoint
    (responseFiles serverFiles other : List String) (st : ClientState) :
    (onUploadSuccess responseFiles serverFiles st).uploadedFiles = serverFiles ∧
    (onUploadSuccess other serverFiles st).uploadedFiles =
      (onUploadSuccess responseFiles serverFiles st).uploadedFiles :=
  ⟨rfl, rfl⟩

/-- C9: a completed client login stores exactly the issued access token
under key 'token' and the username-only object under key 'user_data',
leaving every other storage key unchanged; the resulting auth state holds
only the username and the token, and the whole storage/state outcome is
independent of the password (the password reaches only the login request's
form body, never the stored state). -/
theorem login_stores_only_token_and_username
    (storage : List (String × String)) (username tk : String) :
    ∃ S A, loginHandle storage username (.ok tk) = some (S, A) ∧
      getItem S "token" = some tk ∧
      getItem S "user_data" = some (userDataJson username) ∧
      (∀ k2, k2 ≠ "token" → k2 ≠ "user_data" →
        getItem S k2 = getItem storage k2) ∧
      A = ⟨some ⟨username⟩, some tk⟩ ∧
      (∀ p1 p2, (clientLogin storage username p1 (.ok tk)).2 =
        (clientLogin storage username p2 (.ok tk)).2) := by
  refine ⟨_, _, rfl, ?_, ?_, ?_, rfl, fun p1 p2 => rfl⟩
  · unfold getItem setItem
    rw [alookup_aset_other _ _ _ _ (by decide)]
    exact alookup_aset_self _ _ _
  · unfold getItem setItem
    exact alookup_aset_self _ _ _
  · intro k2 h1 h2
    unfold getItem setItem
    rw [alookup_aset_other _ _ _ _ h2, alookup_aset_other _ _ _ _ h1]

/-- C7 counterexample: on an empty batch the client upload handler reports
nothing at all — no error banner and no request — rather than reporting a
rejection condition to the caller. -/
theorem emptyBatch_counterexample :
    (uploadFileClient []).bannerMsg = none ∧
    (uploadFileClient []).request = none :=
  ⟨rfl, rfl⟩

/-- C7 amended: an upload with an empty batch of files is silently ignored
by the client: the handler returns without issuing any request and without
reporting any rejection. -/
theorem emptyBatch_silent : uploadFileClient [] = ⟨none, none⟩ := rfl

/-- C2 counterexample: a batch holding one valid PDF and one non-PDF file
is rejected whole by the client before any upload: no request is issued
(so the valid PDF is not ingested and no per-file outcome exists) and a
single batch-level error is reported instead of a per-file rejection. -/
theorem mixedBatch_counterexample :
    (uploadFileClient ["doc.pdf", "notes.txt"]).request = none ∧
    (uploadFileClient ["doc.pdf", "notes.txt"]).bannerMsg =
      some "Only PDF files are allowed" := by
  constructor <;> decide

/-- C2 amended: any batch containing at least one non-PDF file is rejected
in its entirety by the client-side validation: no upload request is issued
for any file of the batch — valid PDFs included — and the single error
"Only PDF files are allowed" is reported for the whole batch. -/
theorem mixedBatch_rejected (files : List String) (f : String)
    (hf : f ∈ files) (hnp : isPdfName f = false) :
    (uploadFileClient files).request = none ∧
    (uploadFileClient files).bannerMsg = some "Only PDF files are allowed" := by
  have hne : ¬ files.length = 0 := by
    cases files with
    | nil => cases hf
    | cons a l => simp
  have hmem : f ∈ files.filter (fun f => !(isPdfName f)) :=
    List.mem_filter.mpr ⟨hf, by rw [hnp]; rfl⟩
  have hpos : 0 < (files.filter (fun f => !(isPdfName f))).length :=
    List.length_pos.mpr (List.ne_nil_of_mem hmem)
  unfold uploadFileClient
  rw [if_neg hne, if_pos hpos]
  exact ⟨rfl, rfl⟩

/-- C2 amended witness: concrete instance of the batch-level rejection. -/
theorem mixedBatch_rejected_witness :
    ("notes.txt" ∈ ["doc.pdf", "notes.txt"] ∧ isPdfName "notes.txt" = false) ∧
    ((uploadFileClient ["doc.pdf", "notes.txt"]).request = none ∧
     (uploadFileClient ["doc.pdf", "notes.txt"]).bannerMsg =
       some "Only PDF files are allowed") :=
  ⟨⟨by decide, by decide⟩,
   mixedBatch_rejected ["doc.pdf", "notes.txt"] "notes.txt" (by decide) (by decide)⟩

/-- C5: every data-bearing request the client issues (files, ask, upload,
reset) carries the current bearer token in its Authorization header, and —
backend side, modelled from the spec — a data-bearing operation invoked
with an absent or invalid token yields the unauthorized condition instead
of operating on any index. -/
theorem bearer_on_every_request (tok q fname : String) (files : List String)
    (chs : List Chunk) (embed : String → List Int) (llm : String → Option String)
    (st : SysState) (bad : String) (qv : List Int) (k : Nat)
    (hbad : validate st bad = none) :
    ("Authorization", bearer tok) ∈ (filesRequest tok).headers ∧
    ("Authorization", bearer tok) ∈ (askRequest tok q).headers ∧
    ("Authorization", bearer tok) ∈ (uploadRequest tok files).headers ∧
    ("Authorization", bearer tok) ∈ (resetRequest tok).headers ∧
    uploadTok st none fname chs = .error .unauthorized ∧
    uploadTok st (some bad) fname chs = .error .unauthorized ∧
    answerTok embed llm st none q k = .error .unauthorized ∧
    answerTok embed llm st (some bad) q k = .error .unauthorized ∧
    listFilesTok st none = .error .unauthorized ∧
    listFilesTok st (some bad) = .error .unauthorized ∧
    resetTok st none = .error .unauthorized ∧
    resetTok st (some bad) = .error .unauthorized ∧
    searchTok st none qv k = .error .unauthorized ∧
    searchTok st (some bad) qv k = .error .unauthorized := by
  refine ⟨by simp [filesRequest], by simp [askRequest], by simp [uploadRequest],
    by simp [resetRequest], rfl, ?_, rfl, ?_, rfl, ?_, rfl, ?_, rfl, ?_⟩
  · simp [uploadTok, withAuth, hbad]
  · simp [answerTok, hbad]
  · simp [listFilesTok, withAuth, hbad]
  · simp [resetTok, withAuth, hbad]
  · simp [searchTok, withAuth, hbad]

/-- C5 witness: concrete instance on the empty server state, whose token
table validates no token. -/
theorem bearer_on_every_request_witness :
    validate ⟨[], [], []⟩ "x" = none ∧
    (("Authorization", bearer "t") ∈ (filesRequest "t").headers ∧
     ("Authorization", bearer "t") ∈ (askRequest "t" "q").headers ∧
     ("Authorization", bearer "t") ∈ (uploadRequest "t" ["a.pdf"]).headers ∧
     ("Authorization", bearer "t") ∈ (resetRequest "t").headers ∧
     uploadTok ⟨[], [], []⟩ none "a.pdf" [] = .error .unauthorized ∧
     uploadTok ⟨[], [], []⟩ (some "x") "a.pdf" [] = .error .unauthorized ∧
     answerTok (fun _ => []) (fun _ => none) ⟨[], [], []⟩ none "q" 4 =
       .error .unauthorized ∧
     answerTok (fun _ => []) (fun _ => none) ⟨[], [], []⟩ (some "x") "q" 4 =
       .error .unauthorized ∧
     listFilesTok ⟨[], [], []⟩ none = .error .unauthorized ∧
     listFilesTok ⟨[], [], []⟩ (some "x") = .error .unauthorized ∧
     resetTok ⟨[], [], []⟩ none = .error .unauthorized ∧
     resetTok ⟨[], [], []⟩ (some "x") = .error .unauthorized ∧
     searchTok ⟨[], [], []⟩ none [] 4 = .error .unauthorized ∧
     searchTok ⟨[], [], []⟩ (some "x") [] 4 = .error .unauthorized) :=
  ⟨rfl, bearer_on_every_request "t" "q" "a.pdf" ["a.pdf"] []
    (fun _ => []) (fun _ => none) ⟨[], [], []⟩ "x" [] 4 rfl⟩

/-- C8: after reset the user's index and tracked file list are empty —
list_files returns the empty sequence and search returns an empty result
set — and the cleared per-user data is the same whatever state preceded
the reset (nothing of the prior data survives to recover). -/
theorem reset_clears_all (st st2 : SysState) (u : String) (qv : List Int)
    (k : Nat) :
    filesOf (clearUser st u) u = [] ∧
    chunksOf (clearUser st u) u = [] ∧
    searchIndex (clearUser st u) u qv k = [] ∧
    chunksOf (clearUser st u) u = chunksOf (clearUser st2 u) u ∧
    filesOf (clearUser st u) u = filesOf (clearUser st2 u) u := by
  have h1 : ∀ s : SysState, chunksOf (clearUser s u) u = [] := by
    intro s
    unfold chunksOf clearUser
    rw [alookup_aset_self]
    rfl
  have h2 : ∀ s : SysState, filesOf (clearUser s u) u = [] := by
    intro s
    unfold filesOf clearUser
    rw [alookup_aset_self]
    rfl
  refine ⟨h2 st, h1 st, ?_, by rw [h1 st, h1 st2], by rw [h2 st, h2 st2]⟩
  unfold searchIndex
  rw [h1 st]
  simp [sortByKey]

/-- C4: on a user whose index holds zero chunks the answer operation fails
with the EmptyIndex condition (also through the token-gated entry point),
and that condition is a value distinct from the generic failures (upstream
generation error, unauthorized), so the caller can distinguish it. The
query engine is modelled from the spec. -/
theorem emptyIndex_surfaced (embed : String → List Int)
    (llm : String → Option String) (st : SysState) (u q t : String) (k : Nat)
    (h : chunksOf st u = []) :
    answerOp embed llm st u q k = .error .emptyIndex ∧
    (validate st t = some u →
      answerTok embed llm st (some t) q k = .error .emptyIndex) ∧
    (∀ msg, ApiError.emptyIndex ≠ ApiError.generationError msg) ∧
    ApiError.emptyIndex ≠ ApiError.unauthorized := by
  have h1 : answerOp embed llm st u q k = .error .emptyIndex := by
    unfold answerOp
    rw [if_pos h]
  refine ⟨h1, ?_, ?_, ?_⟩
  · intro hv
    simp [answerTok, hv, h1]
  · intro msg hmsg
    cases hmsg
  · intro hu
    cases hu

/-- C4 witness: a user with a valid token and an empty index. -/
theorem emptyIndex_surfaced_witness :
    chunksOf ⟨[("t", "u")], [], []⟩ "u" = [] ∧
    (answerOp (fun _ => []) (fun _ => none) ⟨[("t", "u")], [], []⟩ "u" "q" 4 =
       .error .emptyIndex ∧
     (validate ⟨[("t", "u")], [], []⟩ "t" = some "u" →
       answerTok (fun _ => []) (fun _ => none) ⟨[("t", "u")], [], []⟩
         (some "t") "q" 4 = .error .emptyIndex) ∧
     (∀ msg, ApiError.emptyIndex ≠ ApiError.generationError msg) ∧
     ApiError.emptyIndex ≠ ApiError.unauthorized) :=
  ⟨rfl, emptyIndex_surfaced (fun _ => []) (fun _ => none)
    ⟨[("t", "u")], [], []⟩ "u" "q" "t" 4 rfl⟩

/-- C1: ingestion under user u1 is invisible to any search or answer
performed with a token validating to a different user u2 — the results are
unchanged by the ingestion — and in particular a chunk of the document
ingested under u1 (not already present in u2's index) is never contained
in u2's search result. Backend modelled from the spec. -/
theorem user_isolation (embed : String → List Int)
    (llm : String → Option String) (st : SysState)
    (t u1 u2 fname q : String) (chs : List Chunk) (c : Chunk)
    (qv : List Int) (k : Nat)
    (hval : validate st t = some u2) (hne : u1 ≠ u2)
    (_hc : c ∈ chs) (hnot : c ∉ chunksOf st u2) :
    searchTok (insertChunks st u1 fname chs) (some t) qv k =
      searchTok st (some t) qv k ∧
    answerTok embed llm (insertChunks st u1 fname chs) (some t) q k =
      answerTok embed llm st (some t) q k ∧
    ∀ res, searchTok (insertChunks st u1 fname chs) (some t) qv k =
      Except.ok res → c ∉ res := by
  have hframe : chunksOf (insertChunks st u1 fname chs) u2 = chunksOf st u2 :=
    chunksOf_insert_other st u1 u2 fname chs (Ne.symm hne)
  have hval2 : validate (insertChunks st u1 fname chs) t = some u2 := hval
  refine ⟨?_, ?_, ?_⟩
  · simp [searchTok, withAuth, hval2, hval, searchIndex, hframe]
  · simp [answerTok, hval2, hval, answerOp, searchIndex, hframe]
  · intro res hres hcres
    simp [searchTok, withAuth, hval2] at hres
    apply hnot
    rw [← hframe]
    exact mem_searchIndex (insertChunks st u1 fname chs) u2 qv k c
      (by rw [hres]; exact hcres)

/-- C1 witness: a fresh chunk ingested under "u1" never reaches the search
or answer results of "u2". -/
theorem user_isolation_witness :
    (validate ⟨[("tok2", "u2")], [], []⟩ "tok2" = some "u2" ∧
     "u1" ≠ "u2" ∧
     (⟨"doc.pdf", "hello", 0, [1]⟩ : Chunk) ∈
       [(⟨"doc.pdf", "hello", 0, [1]⟩ : Chunk)] ∧
     (⟨"doc.pdf", "hello", 0, [1]⟩ : Chunk) ∉
       chunksOf ⟨[("tok2", "u2")], [], []⟩ "u2") ∧
    (searchTok (insertChunks ⟨[("tok2", "u2")], [], []⟩ "u1" "doc.pdf"
        [⟨"doc.pdf", "hello", 0, [1]⟩]) (some "tok2") [0] 4 =
      searchTok ⟨[("tok2", "u2")], [], []⟩ (some "tok2") [0] 4 ∧
     answerTok (fun _ => [0]) (fun _ => some "ans")
        (insertChunks ⟨[("tok2", "u2")], [], []⟩ "u1" "doc.pdf"
          [⟨"doc.pdf", "hello", 0, [1]⟩]) (some "tok2") "q" 4 =
      answerTok (fun _ => [0]) (fun _ => some "ans")
        ⟨[("tok2", "u2")], [], []⟩ (some "tok2") "q" 4 ∧
     ∀ res, searchTok (insertChunks ⟨[("tok2", "u2")], [], []⟩ "u1" "doc.pdf"
        [⟨"doc.pdf", "hello", 0, [1]⟩]) (some "tok2") [0] 4 =
       Except.ok res → (⟨"doc.pdf", "hello", 0, [1]⟩ : Chunk) ∉ res) :=
  ⟨⟨rfl, by decide, by simp, by simp [chunksOf, alookup]⟩,
   user_isolation (fun _ => [0]) (fun _ => some "ans")
     ⟨[("tok2", "u2")], [], []⟩ "tok2" "u1" "u2" "doc.pdf" "q"
     [⟨"doc.pdf", "hello", 0, [1]⟩] ⟨"doc.pdf", "hello", 0, [1]⟩ [0] 4
     rfl (by decide) (by simp) (by simp [chunksOf, alookup])⟩

/-- C3: guarantees of the chunk splitter (modelled from the spec), under
overlap < chunk_size: the empty input yields zero chunks; every chunk has
length at most chunk_size; every character of the input appears in at
least one chunk; consecutive chunks overlap by exactly `overlap`
characters (the length-`overlap` suffix of each chunk equals the
length-`overlap` prefix of the next); for non-trivial inputs
(overlap < length) the chunk count is ceil((len - overlap) /
(chunk_size - overlap)); and concatenating the non-overlapping spans of
the chunks reconstructs the input exactly. Determinism and purity hold by
construction, `splitText` being a total function. -/
theorem chunking_guarantees (cs ov : Nat) (text : List Char) (hov : ov < cs) :
    splitText cs ov [] = [] ∧
    (∀ c ∈ splitText cs ov text, c.length ≤ cs) ∧
    (∀ x ∈ text, ∃ c ∈ splitText cs ov text, x ∈ c) ∧
    List.Chain' (fun a b => a.drop (a.length - ov) = b.take ov)
      (splitText cs ov text) ∧
    (ov < text.length → (splitText cs ov text).length =
      (text.length - ov + (cs - ov) - 1) / (cs - ov)) ∧
    joinSpans (cs - ov) (splitText cs ov text) = text := by
  have hfuel := splitText_fuel_ok cs ov text
  by_cases h0 : text.length = 0
  · have htext : text = [] := List.length_eq_zero.mp h0
    subst htext
    exact ⟨rfl, by simp [splitText], by simp, by simp [splitText],
      by intro h; omega, by simp [splitText, joinSpans]⟩
  · have hsp : splitText cs ov text = splitFrom cs ov text 0 text.length := by
      unfold splitText
      rw [if_neg h0]
    have hjoin : joinSpans (cs - ov) (splitFrom cs ov text 0 text.length) =
        text := by
      have h := joinSpans_splitFrom cs ov text hov text.length 0 hfuel
      simpa using h
    refine ⟨rfl, ?_, ?_, ?_, ?_, ?_⟩
    · rw [hsp]
      exact fun c hc => splitFrom_chunk_le cs ov text _ _ c hc
    · intro x hx
      rw [hsp]
      exact mem_joinSpans _ _ _ (by rw [hjoin]; exact hx)
    · rw [hsp]
      exact chain_splitFrom cs ov text hov _ _
    · intro hovlen
      rw [hsp]
      have h := splitFrom_count cs ov text hov text.length 0 (by omega) hfuel
      simpa using h
    · rw [hsp]
      exact hjoin

/-- C3 witness: the guarantees instantiated on a concrete ten-character
document with chunk_size 4 and overlap 1. -/
theorem chunking_guarantees_witness :
    1 < 4 ∧
    (splitText 4 1 [] = [] ∧
     (∀ c ∈ splitText 4 1 "abcdefghij".toList, c.length ≤ 4) ∧
     (∀ x ∈ "abcdefghij".toList,
        ∃ c ∈ splitText 4 1 "abcdefghij".toList, x ∈ c) ∧
     List.Chain' (fun a b => a.drop (a.length - 1) = b.take 1)
       (splitText 4 1 "abcdefghij".toList) ∧
     (1 < "abcdefghij".toList.length →
       (splitText 4 1 "abcdefghij".toList).length =
         ("abcdefghij".toList.length - 1 + (4 - 1) - 1) / (4 - 1)) ∧
     joinSpans (4 - 1) (splitText 4 1 "abcdefghij".toList) =
       "abcdefghij".toList) :=
  ⟨by decide, chunking_guarantees 4 1 "abcdefghij".toList (by decide)⟩
